import Mathlib

/-!
Formal model of the tenant partitioning, dispatch and header-composition
pipeline of otel-lgtm-proxy.

Shallow embedding of:
- the generic processor (Partition, Dispatch, send) from internal/processor;
- the header composers from internal/util/request/request.go and from the
  per-signal traces variant in internal/traces/traces.go;
- the HTTP signal handlers from internal/handler/logs.go and
  internal/traces/traces.go.

Go machine-level details that have no bearing on the verified properties are
abstracted: the injected HTTP client, protobuf marshalling and Go's
fmt.Sprintf are model parameters; wall-clock durations in the latency
histogram are elided (only the tag set is modelled); Go's case-insensitive
canonicalisation of HTTP header names is elided (keys are compared verbatim);
resource objects are modelled as values, following the ownership invariant
that a resource belongs to exactly one item.  Go map iteration order is
abstracted to first-insertion order, which only makes the model more
deterministic; none of the verified properties depend on bucket order.
-/

namespace Proxy

/-- Model of otlp common.v1 AnyValue: the string oneof variant, or any
non-string dynamic value.  `GetStringValue()` on a non-string variant
returns the empty string in Go, which `getStringValue` mirrors. -/
inductive AnyValue where
  | str (s : String)
  | other
  deriving DecidableEq

/-- Go `attr.GetValue().GetStringValue()`: the string payload, or "" for a
non-string dynamic type. -/
def AnyValue.getStringValue : AnyValue → String
  | .str s => s
  | .other => ""

/-- Model of otlp common.v1 KeyValue. -/
structure KeyValue where
  key : String
  value : AnyValue
  deriving DecidableEq

/-- Model of otlp resource.v1 Resource: its attribute list. -/
structure Resource where
  attributes : List KeyValue
  deriving DecidableEq

/-- A resource-scoped item (ResourceLogs / ResourceMetrics / ResourceSpans):
a Resource plus an opaque payload standing for the scope-grouped records,
which the processor never inspects. -/
structure Item where
  resource : Resource
  payload : Nat
  deriving DecidableEq

/-- Model of config.Tenant (internal/config/config.go): primary label,
ordered fallback labels, header-value format, header name, default tenant. -/
structure Tenant where
  label : String
  labels : List String
  format : String
  header : String
  default : String
  deriving DecidableEq

/-- Model of config.Endpoint: target URL and the raw extra-headers string. -/
structure Endpoint where
  address : String
  headers : String
  deriving DecidableEq

/-- The primary-label loop of Partition (processor.go lines 160-165):
scan the attribute list and, at the first attribute whose key equals the
configured label, take its string value and break. -/
def primaryScan (label : String) : List KeyValue → String
  | [] => ""
  | attr :: rest =>
    if attr.key = label then attr.value.getStringValue else primaryScan label rest

/-- The fallback-label loop of Partition (processor.go lines 170-175):
scan the attribute list and, at the first attribute whose key is contained
in the configured fallback list, take its string value and break. -/
def fallbackScan (labels : List String) : List KeyValue → String
  | [] => ""
  | attr :: rest =>
    if labels.contains attr.key then attr.value.getStringValue else fallbackScan labels rest

/-- The tenant value held by the `tenant` variable of Partition after both
loops (processor.go lines 156-176): the primary loop runs only when the
configured label is non-empty, and the fallback loop runs only when the
primary loop left `tenant` empty and the fallback list is non-empty. -/
def resolveTenant (t : Tenant) (attrs : List KeyValue) : String :=
  let tenant := if t.label = "" then "" else primaryScan t.label attrs
  if tenant = "" ∧ t.labels.length > 0 then fallbackScan t.labels attrs else tenant

/-- A tenant map `map[string][]T`, with buckets listed in first-insertion
order (Go map iteration order is unspecified; bucket contents are not
affected by this choice). -/
abbrev TenantMap := List (String × List Item)

/-- Go `tenantMap[tenant] = append(tenantMap[tenant], item)`: append to the
bucket of `t`, creating it when absent. -/
def bucketAppend : TenantMap → String → Item → TenantMap
  | [], t, i => [(t, [i])]
  | (k, xs) :: rest, t, i =>
    if k = t then (k, xs ++ [i]) :: rest else (k, xs) :: bucketAppend rest t i

/-- Go `tenantMap[tn]` (zero value `[]` when absent). -/
def bucketOf : TenantMap → String → List Item
  | [], _ => []
  | (k, xs) :: rest, tn => if k = tn then xs else bucketOf rest tn

/-- The tenant back-fill of the default branch (processor.go lines 190-193):
append `(label, default)` to the resource's attribute list. -/
def backfill (t : Tenant) (item : Item) : Item :=
  { item with resource := ⟨item.resource.attributes ++ [⟨t.label, AnyValue.str t.default⟩]⟩ }

/-- One iteration of the Partition loop body (processor.go lines 147-197)
acting on the accumulated tenant map. -/
def partitionStep (t : Tenant) (m : TenantMap) (item : Item) : TenantMap :=
  let tenant := resolveTenant t item.resource.attributes
  if tenant = "" then
    if t.default = "" then
      m
    else
      bucketAppend m t.default (backfill t item)
  else
    bucketAppend m tenant item

/-- Partition (processor.go lines 135-201): fold the loop body over the
input items starting from the empty map. -/
def Partition (t : Tenant) (items : List Item) : TenantMap :=
  items.foldl (partitionStep t) []

/-- The bucket an item is routed to: `none` exactly when the item is dropped
(unresolved tenant and no default configured). -/
def route (t : Tenant) (item : Item) : Option String :=
  let tenant := resolveTenant t item.resource.attributes
  if tenant = "" then
    if t.default = "" then none else some t.default
  else
    some tenant

/-- The form an item takes inside its bucket: back-filled when it went
through the default branch, unchanged otherwise. -/
def outputItem (t : Tenant) (item : Item) : Item :=
  if resolveTenant t item.resource.attributes = "" then backfill t item else item

/-- Total number of items across all buckets. -/
def sizeSum (m : TenantMap) : Nat := (m.map (fun e => e.2.length)).sum

/-- An HTTP header, modelled as the ordered list of (name, value) pairs.
Go's case-insensitive canonicalisation of names is elided. -/
abbrev Header := List (String × String)

/-- Go `req.Header.Add(k, v)`: append one more value for the name. -/
def headerAdd (h : Header) (k v : String) : Header := h ++ [(k, v)]

/-- Go `req.Header.Set(k, v)`: replace all values for the name by one. -/
def headerSet (h : Header) (k v : String) : Header :=
  (h.filter (fun p => p.1 ≠ k)) ++ [(k, v)]

/-- All values carried under a name, in order. -/
def headerValues (h : Header) (k : String) : List String :=
  (h.filter (fun p => p.1 = k)).map (fun p => p.2)

/-- Split a character list at every occurrence of the separator; the result
always has at least one (possibly empty) piece. -/
def splitChar (sep : Char) : List Char → List (List Char)
  | [] => [[]]
  | c :: rest =>
    match splitChar sep rest with
    | [] => [[]]
    | piece :: pieces => if c = sep then [] :: piece :: pieces else (c :: piece) :: pieces

/-- Split a character list at the first occurrence of the separator, when
there is one. -/
def splitFirst (sep : Char) : List Char → Option (List Char × List Char)
  | [] => none
  | c :: rest =>
    if c = sep then some ([], rest)
    else
      match splitFirst sep rest with
      | none => none
      | some (k, v) => some (c :: k, v)

/-- Go `strings.Split(s, sep)` for the one-character separators used by the
header composer. -/
def goSplit (s : String) (sep : Char) : List String :=
  (splitChar sep s.data).map String.mk

/-- Go `strings.SplitN(s, sep, 2)`: `[s]` when the separator does not
occur, otherwise the parts before and after its first occurrence. -/
def splitN2 (s : String) (sep : Char) : List String :=
  match splitFirst sep s.data with
  | none => [s]
  | some (k, v) => [String.mk k, String.mk v]

/-- One piece of the extra-headers string, split on its first "=": a
key/value pair when the split yields two parts (Go `len(kv) == 2`), nothing
otherwise. -/
def parsePiece (customHeader : String) : Option (String × String) :=
  match splitN2 customHeader '=' with
  | [k, v] => some (k, v)
  | _ => none

/-- One iteration of the extra-headers loop of AddHeaders: Add the pair
when the piece splits as k=v, silently skip it otherwise. -/
def addCustomHeader (h : Header) (customHeader : String) : Header :=
  match parsePiece customHeader with
  | some (k, v) => headerAdd h k v
  | none => h

/-- AddHeaders (internal/util/request/request.go lines 13-25).  Go's
fmt.Sprintf is a model parameter `sprintf` applied to the configured format
and the tenant identity.  Set Content-Type, Add the tenant header with the
formatted identity, then split the extra-headers string on "," and fold the
custom-header loop over the pieces. -/
def AddHeaders (sprintf : String → String → String) (tenant : String) (h : Header)
    (t : Tenant) (headers : String) : Header :=
  let h := headerSet h "Content-Type" "application/x-protobuf"
  let h := headerAdd h t.header (sprintf t.format tenant)
  (goSplit headers ',').foldl addCustomHeader h

/-- The well-formed `k=v` pairs of an extra-headers string, in order. -/
def parsedPairs (headers : String) : List (String × String) :=
  (goSplit headers ',').filterMap parsePiece

/-- The slice of config.Config the header composers read: the tenant
configuration and the per-signal logs and traces endpoints. -/
structure Config where
  tenant : Tenant
  logs : Endpoint
  traces : Endpoint
  deriving DecidableEq

/-- addHeaders of the per-signal traces variant (internal/traces/traces.go
lines 150-163): same Set/Add/loop structure as the generic composer, except
that the custom-header loop splits `t.config.Logs.Headers` — the logs
endpoint's extra-headers string — although the request is bound for the
traces endpoint. -/
def tracesAddHeaders (sprintf : String → String → String) (tenant : String)
    (h : Header) (cfg : Config) : Header :=
  let h := headerSet h "Content-Type" "application/x-protobuf"
  let h := headerAdd h cfg.tenant.header (sprintf cfg.tenant.format tenant)
  (goSplit cfg.logs.headers ',').foldl addCustomHeader h

/-- An HTTP response; only the status code is observed by the processor. -/
structure HttpResponse where
  statusCode : Nat
  deriving DecidableEq

/-- An outbound HTTP request: URL, encoded body, headers. -/
structure Request where
  url : String
  body : List Nat
  header : Header
  deriving DecidableEq

/-- The external collaborators of send, injected as model parameters:
the marshalResources closure, http.NewRequestWithContext, the HTTP client's
Do, and fmt.Sprintf. -/
structure SendEnv where
  marshal : List Item → Except String (List Nat)
  newRequest : String → List Nat → Except String Request
  doRequest : Request → Except String HttpResponse
  sprintf : String → String → String

/-- The three error sources of send (processor.go lines 320-347), each
wrapping the underlying message. -/
inductive SendError where
  | marshalFailure (msg : String)
  | requestFailure (msg : String)
  | transportFailure (msg : String)
  deriving DecidableEq

/-- One observable self-observability event: an increment of
proxy_records_total, of proxy_requests_total, or one latency histogram
sample (whose wall-clock value is elided; only its tags are modelled).
Tags are listed in the order the code passes them. -/
inductive MetricEvent where
  | records (n : Nat) (tags : List (String × String))
  | requests (n : Nat) (tags : List (String × String))
  | latency (tags : List (String × String))
  deriving DecidableEq

/-- send (processor.go lines 302-381): marshal the bucket, build the POST
request, compose headers, execute, and on any response record the latency
histogram tagged with the status code and return the response with no
error.  Errors arise only from marshalling, request construction, or the
executor. -/
def send (env : SendEnv) (t : Tenant) (ep : Endpoint) (st tenant : String)
    (resources : List Item) : Except SendError HttpResponse × List MetricEvent :=
  match env.marshal resources with
  | .error e => (.error (.marshalFailure e), [])
  | .ok body =>
    match env.newRequest ep.address body with
    | .error e => (.error (.requestFailure e), [])
    | .ok req =>
      let req := { req with header := AddHeaders env.sprintf tenant req.header t ep.headers }
      match env.doRequest req with
      | .error e => (.error (.transportFailure e), [])
      | .ok resp =>
        (.ok resp,
          [.latency [("signal.response.status.code", toString resp.statusCode),
            ("signal.type", st), ("signal.tenant", tenant)]])

/-- The body of one Dispatch worker goroutine (processor.go lines 220-294):
call send; on error bump proxy_records_total by the bucket size tagged with
tenant and signal type only (no status code, no requests increment) and
return; on any response bump proxy_records_total by the bucket size and
proxy_requests_total by 1, both tagged with signal type, tenant and the
response status code. -/
def worker (env : SendEnv) (t : Tenant) (ep : Endpoint) (st tenant : String)
    (resources : List Item) : List MetricEvent :=
  let (result, sendEvents) := send env t ep st tenant resources
  match result with
  | .error _ =>
    sendEvents ++
      [.records resources.length [("signal.tenant", tenant), ("signal.type", st)]]
  | .ok resp =>
    sendEvents ++
      [.records resources.length
        [("signal.type", st), ("signal.tenant", tenant),
          ("signal.response.status.code", toString resp.statusCode)],
       .requests 1
        [("signal.type", st), ("signal.tenant", tenant),
          ("signal.response.status.code", toString resp.statusCode)]]

/-- Dispatch (processor.go lines 204-299): run one worker per bucket, wait
for all of them, and return nil.  Workers run concurrently in Go; the model
serialises them in map order, on which the per-tenant accounting does not
depend. -/
def Dispatch (env : SendEnv) (t : Tenant) (ep : Endpoint) (st : String)
    (tenantMap : TenantMap) : List MetricEvent × Option String :=
  (tenantMap.foldl (fun evs entry => evs ++ worker env t ep st entry.1 entry.2) [], none)

/-- What a handler writes back: a status code with a body, or nothing
(the branch that returns without touching the ResponseWriter).
http.Error's trailing newline on the body is elided. -/
inductive HandlerOutcome where
  | response (status : Nat) (body : String)
  | noWrite
  deriving DecidableEq

/-- The Logs handler (internal/handler/logs.go; the Metrics and Traces
handlers of the same package are identical up to the signal type).  The
decode outcome and the processor-construction outcome are model parameters.
On decode failure: http.Error with the decode error's own message and 400.
On construction failure: 500.  Otherwise Partition then Dispatch; a non-nil
Dispatch error returns without writing, else 202 with an empty body. -/
def Logs (decodeResult : Except String (List Item)) (procNew : Except String Unit)
    (env : SendEnv) (t : Tenant) (ep : Endpoint) : HandlerOutcome × List MetricEvent :=
  match decodeResult with
  | .error e => (.response 400 e, [])
  | .ok items =>
    match procNew with
    | .error e => (.response 500 e, [])
    | .ok _ =>
      let (events, dispatchErr) := Dispatch env t ep "logs" (Partition t items)
      match dispatchErr with
      | some _ => (.noWrite, events)
      | none => (.response 202 "", events)

/-- The Traces handler of the per-signal variant (internal/traces/traces.go
lines 117-148), modelled on its branch structure: its own partition and
dispatch computation enters as the pair (dispatchErr, dispatchEvents).  On
decode failure: 400 with the fixed body "failed to unmarshal traces" and no
partitioning or dispatch. -/
def tracesHandler (decodeResult : Except String (List Item))
    (dispatchErr : Option String) (dispatchEvents : List MetricEvent) :
    HandlerOutcome × List MetricEvent :=
  match decodeResult with
  | .error _ => (.response 400 "failed to unmarshal traces", [])
  | .ok _ =>
    match dispatchErr with
    | some _ => (.response 500 "failed to dispatch traces", dispatchEvents)
    | none => (.response 202 "", dispatchEvents)

/-- Sum of all proxy_records_total increments carrying exactly this tag
list. -/
def recordsTotal (evs : List MetricEvent) (tags : List (String × String)) : Nat :=
  (evs.filterMap
    (fun ev =>
      match ev with
      | .records n tgs => if tgs = tags then some n else none
      | _ => none)).sum

/-- Sum of all proxy_requests_total increments carrying exactly this tag
list. -/
def requestsTotal (evs : List MetricEvent) (tags : List (String × String)) : Nat :=
  (evs.filterMap
    (fun ev =>
      match ev with
      | .requests n tgs => if tgs = tags then some n else none
      | _ => none)).sum

/-- The reference resolution procedure exactly as claim C2 words it: use the
primary key's non-empty string value if present; otherwise scan the fallback
keys in the configured order and use the first non-empty string value found
(values of non-string dynamic type and empty strings are absent); otherwise
the configured default; otherwise none. -/
def claimedResolve (t : Tenant) (attrs : List KeyValue) : Option String :=
  match attrs.find? (fun a => a.key = t.label ∧ a.value.getStringValue ≠ "") with
  | some a => some a.value.getStringValue
  | none =>
    match t.labels.findSome?
        (fun l => attrs.findSome?
          (fun a =>
            if a.key = l ∧ a.value.getStringValue ≠ "" then some a.value.getStringValue
            else none)) with
    | some v => some v
    | none => if t.default = "" then none else some t.default

/-- The resolution procedure the code actually implements, stated
declaratively: the string value of the first attribute whose key equals the
configured primary label (when that label is non-empty), if that value is
non-empty; otherwise the string value of the first attribute, in
attribute-list order, whose key is any of the fallback labels, if that value
is non-empty; otherwise the configured default when non-empty; otherwise the
item is dropped. -/
def amendedResolve (t : Tenant) (attrs : List KeyValue) : Option String :=
  let primary :=
    if t.label = "" then ""
    else
      match attrs.find? (fun a => a.key = t.label) with
      | some a => a.value.getStringValue
      | none => ""
  let resolved :=
    if primary = "" then
      match attrs.find? (fun a => t.labels.contains a.key) with
      | some a => a.value.getStringValue
      | none => ""
    else primary
  if resolved = "" then (if t.default = "" then none else some t.default)
  else some resolved

/-- A concrete SendEnv whose executor always answers with status 500,
used to instantiate the universally quantified theorems about send and
Dispatch at one input. -/
def env500 : SendEnv where
  marshal := fun _ => .ok [0]
  newRequest := fun u b => .ok ⟨u, b, []⟩
  doRequest := fun _ => .ok ⟨500⟩
  sprintf := fun _ tenant => tenant

/-- A concrete SendEnv whose executor always fails with a transport error,
used to instantiate the accounting theorems on the failure branch. -/
def envFail : SendEnv where
  marshal := fun _ => .ok [0]
  newRequest := fun u b => .ok ⟨u, b, []⟩
  doRequest := fun _ => .error "connection refused"
  sprintf := fun _ tenant => tenant

/-- A concrete tenant configuration with the repository's defaults. -/
def tenantC : Tenant := ⟨"tenant.id", [], "%s", "X-Scope-OrgID", "default"⟩

/-- A concrete endpoint. -/
def endpointC : Endpoint := ⟨"http://loki:3100/loki/api/v1/push", ""⟩

/-- A concrete item carrying one attribute `service.name = svc`. -/
def itemC : Item := ⟨⟨[⟨"service.name", AnyValue.str "svc"⟩]⟩, 0⟩

/-- A concrete configuration whose logs and traces endpoints carry distinct
extra-headers strings. -/
def cfgC : Config :=
  ⟨tenantC, ⟨"http://loki:3100/loki/api/v1/push", "a=b"⟩,
    ⟨"http://tempo:3200/v1/traces", "c=d"⟩⟩

theorem bucketOf_bucketAppend (m : TenantMap) (t : String) (i : Item) (tn : String) :
    bucketOf (bucketAppend m t i) tn =
      if tn = t then bucketOf m tn ++ [i] else bucketOf m tn := by
  induction m with
  | nil =>
    simp only [bucketAppend, bucketOf]
    by_cases h : tn = t
    · subst h; simp
    · have h' : ¬t = tn := fun hh => h hh.symm
      simp [h, h']
  | cons e rest ih =>
    obtain ⟨k, xs⟩ := e
    simp only [bucketAppend]
    by_cases hkt : k = t
    · subst hkt
      simp only [if_pos rfl, bucketOf]
      by_cases htn : k = tn
      · subst htn; simp
      · have htn' : ¬tn = k := fun hh => htn hh.symm
        simp [htn, htn']
    · simp only [if_neg hkt, bucketOf]
      by_cases hktn : k = tn
      · subst hktn
        simp [hkt]
      · simp [hktn, ih]

theorem sizeSum_bucketAppend (m : TenantMap) (t : String) (i : Item) :
    sizeSum (bucketAppend m t i) = sizeSum m + 1 := by
  induction m with
  | nil => simp [bucketAppend, sizeSum]
  | cons e rest ih =>
    obtain ⟨k, xs⟩ := e
    by_cases hkt : k = t
    · subst hkt; simp [bucketAppend, sizeSum]; omega
    · simp [bucketAppend, hkt, sizeSum] at ih ⊢; omega

theorem keys_bucketAppend (m : TenantMap) (t : String) (i : Item) :
    (bucketAppend m t i).map Prod.fst =
      if t ∈ m.map Prod.fst then m.map Prod.fst else m.map Prod.fst ++ [t] := by
  induction m with
  | nil => simp [bucketAppend]
  | cons e rest ih =>
    obtain ⟨k, xs⟩ := e
    by_cases hkt : k = t
    · subst hkt; simp [bucketAppend]
    · simp only [bucketAppend, if_neg hkt, List.map_cons, ih, List.mem_cons]
      by_cases hmem : t ∈ rest.map Prod.fst
      · simp [hmem]
      · have hkt' : ¬t = k := fun hh => hkt hh.symm
        simp [hmem, hkt']

theorem nodup_keys_bucketAppend (m : TenantMap) (t : String) (i : Item)
    (h : (m.map Prod.fst).Nodup) : ((bucketAppend m t i).map Prod.fst).Nodup := by
  rw [keys_bucketAppend]
  by_cases hmem : t ∈ m.map Prod.fst
  · simpa [hmem] using h
  · simp [hmem, List.nodup_append, h]

theorem partitionStep_route (t : Tenant) (m : TenantMap) (item : Item) :
    partitionStep t m item =
      match route t item with
      | none => m
      | some tn => bucketAppend m tn (outputItem t item) := by
  unfold partitionStep route outputItem
  by_cases h1 : resolveTenant t item.resource.attributes = ""
  · by_cases h2 : t.default = "" <;> simp [h1, h2]
  · simp [h1]

theorem bucketOf_partition_foldl (t : Tenant) (items : List Item) (m : TenantMap)
    (tn : String) :
    bucketOf (items.foldl (partitionStep t) m) tn =
      bucketOf m tn ++
        (items.filter (fun i => route t i = some tn)).map (outputItem t) := by
  induction items generalizing m with
  | nil => simp
  | cons item rest ih =>
    simp only [List.foldl_cons, ih, List.filter_cons]
    rw [partitionStep_route]
    cases hr : route t item with
    | none => simp
    | some tn' =>
      by_cases htn : tn' = tn
      · subst htn
        simp [bucketOf_bucketAppend]
      · have htn' : ¬tn = tn' := fun hh => htn hh.symm
        simp [bucketOf_bucketAppend, htn, htn']

theorem sizeSum_partition_foldl (t : Tenant) (items : List Item) (m : TenantMap) :
    sizeSum (items.foldl (partitionStep t) m) =
      sizeSum m + items.countP (fun i => (route t i).isSome) := by
  induction items generalizing m with
  | nil => simp
  | cons item rest ih =>
    simp only [List.foldl_cons, ih, List.countP_cons]
    rw [partitionStep_route]
    cases hr : route t item with
    | none => simp
    | some tn' => simp [sizeSum_bucketAppend]; omega

theorem nodup_keys_partition_foldl (t : Tenant) (items : List Item) (m : TenantMap)
    (h : (m.map Prod.fst).Nodup) :
    ((items.foldl (partitionStep t) m).map Prod.fst).Nodup := by
  induction items generalizing m with
  | nil => exact h
  | cons item rest ih =>
    simp only [List.foldl_cons]
    apply ih
    rw [partitionStep_route]
    cases route t item with
    | none => exact h
    | some tn' => exact nodup_keys_bucketAppend _ _ _ h

theorem countP_route_split (t : Tenant) (items : List Item) :
    items.countP (fun i => (route t i).isSome) +
      items.countP (fun i => (route t i).isNone) = items.length := by
  induction items with
  | nil => simp
  | cons a l ih =>
    simp only [List.countP_cons, List.length_cons]
    cases route t a <;> simp <;> omega

/-- C1: for every input list and tenant configuration, each item is routed
to exactly one bucket of Partition or is dropped: the sum of the bucket
sizes equals the number of input items minus the number of
unresolved-tenant drops, the bucket keys are pairwise distinct, and the
bucket of each tenant is exactly the (back-filled) sublist of the input
items routed to that tenant — so an item never lands in two buckets. -/
theorem partition_conservation_disjointness (t : Tenant) (items : List Item) :
    sizeSum (Partition t items) =
        items.length - items.countP (fun i => (route t i).isNone) ∧
    ((Partition t items).map Prod.fst).Nodup ∧
    ∀ tn, bucketOf (Partition t items) tn =
      (items.filter (fun i => route t i = some tn)).map (outputItem t) := by
  refine ⟨?_, ?_, ?_⟩
  · have h1 := sizeSum_partition_foldl t items []
    have h2 := countP_route_split t items
    unfold Partition
    have h0 : sizeSum ([] : TenantMap) = 0 := rfl
    omega
  · exact nodup_keys_partition_foldl t items [] (by simp)
  · intro tn
    have h := bucketOf_partition_foldl t items [] tn
    simpa [Partition, bucketOf] using h

/-- C3: within every bucket of Partition, items appear in the same relative
order as in the input list: each bucket is a sublist of the input sequence
(items taken in their bucket form, back-filled where the default branch
applied). -/
theorem partition_preserves_order (t : Tenant) (items : List Item) (tn : String) :
    (bucketOf (Partition t items) tn).Sublist (items.map (outputItem t)) := by
  have h := bucketOf_partition_foldl t items [] tn
  have hsub : ((items.filter (fun i => route t i = some tn)).map
      (outputItem t)).Sublist (items.map (outputItem t)) :=
    (List.filter_sublist items).map _
  simpa [Partition, bucketOf] using h ▸ hsub

theorem bucketOf_Partition (t : Tenant) (items : List Item) (tn : String) :
    bucketOf (Partition t items) tn =
      (items.filter (fun i => route t i = some tn)).map (outputItem t) := by
  simpa [Partition, bucketOf] using bucketOf_partition_foldl t items [] tn

/-- C4: every resource whose item was resolved via the default-tenant branch
leaves Partition with the attribute `(primary label, raw default value)`
appended (the tenant format of the header composer is never applied here),
and items resolved via the primary or fallback labels enter their bucket
unchanged. -/
theorem partition_default_backfill (t : Tenant) (items : List Item) (item : Item)
    (hmem : item ∈ items) :
    (resolveTenant t item.resource.attributes = "" → t.default ≠ "" →
      backfill t item ∈ bucketOf (Partition t items) t.default ∧
      (backfill t item).resource.attributes =
        item.resource.attributes ++ [⟨t.label, AnyValue.str t.default⟩]) ∧
    (resolveTenant t item.resource.attributes ≠ "" →
      item ∈ bucketOf (Partition t items) (resolveTenant t item.resource.attributes)) := by
  constructor
  · intro h1 h2
    refine ⟨?_, rfl⟩
    rw [bucketOf_Partition]
    have hroute : route t item = some t.default := by simp [route, h1, h2]
    have hout : outputItem t item = backfill t item := by simp [outputItem, h1]
    exact hout ▸ List.mem_map_of_mem _ (List.mem_filter.2 ⟨hmem, by simp [hroute]⟩)
  · intro h1
    rw [bucketOf_Partition]
    have hroute : route t item = some (resolveTenant t item.resource.attributes) := by
      simp [route, h1]
    have hout : outputItem t item = item := by simp [outputItem, h1]
    have hin : outputItem t item ∈
        (items.filter
          (fun i => route t i = some (resolveTenant t item.resource.attributes))).map
          (outputItem t) :=
      List.mem_map_of_mem _ (List.mem_filter.2 ⟨hmem, by simp [hroute]⟩)
    rwa [hout] at hin

/-- Witness for C4 at a concrete input: with the default configuration, the
item carrying only `service.name = svc` is back-filled with
`tenant.id = default` and lands in the bucket of tenant `default`. -/
theorem partition_default_backfill_witness :
    backfill tenantC itemC ∈ bucketOf (Partition tenantC [itemC]) tenantC.default :=
  ((partition_default_backfill tenantC [itemC] itemC (by decide)).1
    (by decide) (by decide)).1

/-- C10: when the configured primary label is empty while a non-empty
default tenant is configured, an item resolved through the default branch is
still bucketed under the default tenant, but the appended attribute carries
the empty string as its key. -/
theorem partition_empty_label_backfill (t : Tenant) (items : List Item) (item : Item)
    (hmem : item ∈ items) (hlabel : t.label = "") (hdef : t.default ≠ "")
    (hres : resolveTenant t item.resource.attributes = "") :
    (⟨⟨item.resource.attributes ++ [⟨"", AnyValue.str t.default⟩]⟩, item.payload⟩ : Item) ∈
      bucketOf (Partition t items) t.default := by
  rw [bucketOf_Partition]
  have hroute : route t item = some t.default := by simp [route, hres, hdef]
  have hout : outputItem t item =
      (⟨⟨item.resource.attributes ++ [⟨"", AnyValue.str t.default⟩]⟩, item.payload⟩ : Item) := by
    simp [outputItem, hres, backfill, hlabel]
  exact hout ▸ List.mem_map_of_mem _ (List.mem_filter.2 ⟨hmem, by simp [hroute]⟩)

/-- Witness for C10 at a concrete input: with label "" and default "shared",
the `service.name`-only item is bucketed under "shared" and carries an
appended attribute with key "". -/
theorem partition_empty_label_backfill_witness :
    (⟨⟨itemC.resource.attributes ++
        [⟨"", AnyValue.str (Tenant.mk "" [] "%s" "X-Scope-OrgID" "shared").default⟩]⟩,
      itemC.payload⟩ : Item) ∈
      bucketOf (Partition (Tenant.mk "" [] "%s" "X-Scope-OrgID" "shared") [itemC])
        (Tenant.mk "" [] "%s" "X-Scope-OrgID" "shared").default :=
  partition_empty_label_backfill (Tenant.mk "" [] "%s" "X-Scope-OrgID" "shared")
    [itemC] itemC (by decide) (by decide) (by decide) (by decide)

theorem fallbackScan_nil (attrs : List KeyValue) : fallbackScan [] attrs = "" := by
  induction attrs with
  | nil => rfl
  | cons a rest ih => simpa [fallbackScan] using ih

theorem primaryScan_eq_find (label : String) (attrs : List KeyValue) :
    primaryScan label attrs =
      match attrs.find? (fun a => a.key = label) with
      | some a => a.value.getStringValue
      | none => "" := by
  induction attrs with
  | nil => rfl
  | cons a rest ih =>
    by_cases h : a.key = label
    · simp [primaryScan, h, List.find?_cons]
    · simp [primaryScan, h, List.find?_cons, ih]

theorem fallbackScan_eq_find (labels : List String) (attrs : List KeyValue) :
    fallbackScan labels attrs =
      match attrs.find? (fun a => labels.contains a.key) with
      | some a => a.value.getStringValue
      | none => "" := by
  induction attrs with
  | nil => rfl
  | cons a rest ih =>
    by_cases h : a.key ∈ labels
    · simp [fallbackScan, h, List.find?_cons]
    · simp [fallbackScan, h, List.find?_cons, ih]

theorem route_eq_amendedResolve (t : Tenant) (item : Item) :
    route t item = amendedResolve t item.resource.attributes := by
  have hp := primaryScan_eq_find t.label item.resource.attributes
  have hf := fallbackScan_eq_find t.labels item.resource.attributes
  unfold route resolveTenant amendedResolve
  rw [← hp, ← hf]
  by_cases hP : (if t.label = "" then "" else primaryScan t.label item.resource.attributes) = ""
  · cases hlab : t.labels with
    | nil => simp [hP, hlab, fallbackScan_nil]
    | cons x xs => simp [hP, hlab]
  · simp [hP]

/-- C2 is refuted as stated: the claimed reference procedure scans the
fallback keys in configured order, but Partition scans the resource's
attribute list in attribute order against the fallback set.  With primary
`tenant.id`, fallbacks `[fb1, fb2]` and attribute list `[fb2 = "b",
fb1 = "a"]`, the claimed procedure yields tenant "a" while Partition buckets
the item under "b". -/
theorem partition_fallback_order_counterexample :
    Partition ⟨"tenant.id", ["fb1", "fb2"], "%s", "X-Scope-OrgID", "default"⟩
        [⟨⟨[⟨"fb2", AnyValue.str "b"⟩, ⟨"fb1", AnyValue.str "a"⟩]⟩, 0⟩] =
      [("b", [⟨⟨[⟨"fb2", AnyValue.str "b"⟩, ⟨"fb1", AnyValue.str "a"⟩]⟩, 0⟩])] ∧
    claimedResolve ⟨"tenant.id", ["fb1", "fb2"], "%s", "X-Scope-OrgID", "default"⟩
        [⟨"fb2", AnyValue.str "b"⟩, ⟨"fb1", AnyValue.str "a"⟩] = some "a" ∧
    "a" ≠ "b" := by
  refine ⟨by decide, by decide, by decide⟩

/-- C2 (amended): for every resource attribute list and tenant
configuration, the tenant identity computed by Partition equals the
following procedure: take the string value of the first attribute whose key
equals the configured primary label (when that label is non-empty), if that
value is non-empty; otherwise take the string value of the first attribute,
in attribute-list order, whose key is any of the fallback labels, if that
value is non-empty (a first-matching attribute holding an empty or
non-string value does not trigger further scanning at either step);
otherwise use the configured default; otherwise drop the item. -/
theorem partition_resolution_amended (t : Tenant) (items : List Item) (tn : String) :
    bucketOf (Partition t items) tn =
      (items.filter (fun i => amendedResolve t i.resource.attributes = some tn)).map
        (outputItem t) := by
  rw [bucketOf_Partition]
  congr 1
  apply List.filter_congr
  intro i _
  simp [route_eq_amendedResolve]

/-- C5: Dispatch returns a nil error for every tenant map and every send
environment — including environments whose every send fails — and for every
request whose body decodes successfully (and whose processor constructs),
the Logs handler writes 202 Accepted after Dispatch returns. -/
theorem dispatch_nil_error_handler_202 (env : SendEnv) (t : Tenant) (ep : Endpoint)
    (st : String) (items : List Item) :
    (∀ tenantMap : TenantMap, (Dispatch env t ep st tenantMap).2 = none) ∧
    (Logs (.ok items) (.ok ()) env t ep).1 = .response 202 "" := by
  exact ⟨fun _ => rfl, rfl⟩

theorem recordsTotal_append (a b : List MetricEvent) (tags : List (String × String)) :
    recordsTotal (a ++ b) tags = recordsTotal a tags + recordsTotal b tags := by
  simp [recordsTotal, List.filterMap_append]

theorem requestsTotal_append (a b : List MetricEvent) (tags : List (String × String)) :
    requestsTotal (a ++ b) tags = requestsTotal a tags + requestsTotal b tags := by
  simp [requestsTotal, List.filterMap_append]

theorem send_snd_no_counters (env : SendEnv) (t : Tenant) (ep : Endpoint)
    (st tenant : String) (rs : List Item) (tags : List (String × String)) :
    recordsTotal (send env t ep st tenant rs).2 tags = 0 ∧
    requestsTotal (send env t ep st tenant rs).2 tags = 0 := by
  unfold send
  cases hm : env.marshal rs with
  | error e => simp [recordsTotal, requestsTotal]
  | ok body =>
    cases hr : env.newRequest ep.address body with
    | error e => simp [hr, recordsTotal, requestsTotal]
    | ok req =>
      cases hd : env.doRequest
          { req with header := AddHeaders env.sprintf tenant req.header t ep.headers } with
      | error e => simp [hr, hd, recordsTotal, requestsTotal]
      | ok resp => simp [hr, hd, recordsTotal, requestsTotal]

theorem worker_eq_of_ok (env : SendEnv) (t : Tenant) (ep : Endpoint)
    (st tenant : String) (rs : List Item) (resp : HttpResponse)
    (h : (send env t ep st tenant rs).1 = .ok resp) :
    worker env t ep st tenant rs =
      (send env t ep st tenant rs).2 ++
        [.records rs.length
          [("signal.type", st), ("signal.tenant", tenant),
            ("signal.response.status.code", toString resp.statusCode)],
         .requests 1
          [("signal.type", st), ("signal.tenant", tenant),
            ("signal.response.status.code", toString resp.statusCode)]] := by
  rcases hs : send env t ep st tenant rs with ⟨r, evs⟩
  rw [hs] at h
  have h' : r = Except.ok resp := h
  subst h'
  simp [worker, hs]

theorem worker_eq_of_err (env : SendEnv) (t : Tenant) (ep : Endpoint)
    (st tenant : String) (rs : List Item) (e : SendError)
    (h : (send env t ep st tenant rs).1 = .error e) :
    worker env t ep st tenant rs =
      (send env t ep st tenant rs).2 ++
        [.records rs.length [("signal.tenant", tenant), ("signal.type", st)]] := by
  rcases hs : send env t ep st tenant rs with ⟨r, evs⟩
  rw [hs] at h
  have h' : r = Except.error e := h
  subst h'
  simp [worker, hs]

theorem worker_ok_totals (env : SendEnv) (t : Tenant) (ep : Endpoint)
    (st tenant : String) (rs : List Item) (resp : HttpResponse)
    (h : (send env t ep st tenant rs).1 = .ok resp) :
    recordsTotal (worker env t ep st tenant rs)
        [("signal.type", st), ("signal.tenant", tenant),
          ("signal.response.status.code", toString resp.statusCode)] = rs.length ∧
    requestsTotal (worker env t ep st tenant rs)
        [("signal.type", st), ("signal.tenant", tenant),
          ("signal.response.status.code", toString resp.statusCode)] = 1 := by
  have hw := worker_eq_of_ok env t ep st tenant rs resp h
  have hsnd := send_snd_no_counters env t ep st tenant rs
    [("signal.type", st), ("signal.tenant", tenant),
      ("signal.response.status.code", toString resp.statusCode)]
  rw [hw, recordsTotal_append, requestsTotal_append, hsnd.1, hsnd.2]
  constructor
  · simp [recordsTotal]
  · simp [requestsTotal]

theorem worker_err_totals (env : SendEnv) (t : Tenant) (ep : Endpoint)
    (st tenant : String) (rs : List Item) (e : SendError)
    (h : (send env t ep st tenant rs).1 = .error e) :
    recordsTotal (worker env t ep st tenant rs)
        [("signal.tenant", tenant), ("signal.type", st)] = rs.length ∧
    ∀ tags : List (String × String), requestsTotal (worker env t ep st tenant rs) tags = 0 := by
  have hw := worker_eq_of_err env t ep st tenant rs e h
  constructor
  · have hsnd := send_snd_no_counters env t ep st tenant rs
      [("signal.tenant", tenant), ("signal.type", st)]
    rw [hw, recordsTotal_append, hsnd.1]
    simp [recordsTotal]
  · intro tags
    have hsnd := send_snd_no_counters env t ep st tenant rs tags
    rw [hw, requestsTotal_append, hsnd.2]
    simp [requestsTotal]

theorem worker_totals_other_tenant (env : SendEnv) (t : Tenant) (ep : Endpoint)
    (st tenant' : String) (rs : List Item) (tenant : String) (hne : tenant' ≠ tenant)
    (tags : List (String × String)) (htags : ("signal.tenant", tenant) ∈ tags) :
    recordsTotal (worker env t ep st tenant' rs) tags = 0 ∧
    requestsTotal (worker env t ep st tenant' rs) tags = 0 := by
  have herr : [(("signal.tenant" : String), tenant'), ("signal.type", st)] ≠ tags := by
    intro heq
    rw [← heq] at htags
    rcases List.mem_cons.1 htags with h1 | h1
    · exact hne (congrArg Prod.snd h1).symm
    · have h2 := List.mem_singleton.1 h1
      have h4 : ("signal.tenant" : String) = "signal.type" := congrArg Prod.fst h2
      exact absurd h4 (by decide)
  have hok : ∀ c : String,
      [(("signal.type" : String), st), ("signal.tenant", tenant'),
        ("signal.response.status.code", c)] ≠ tags := by
    intro c heq
    rw [← heq] at htags
    rcases List.mem_cons.1 htags with h1 | h1
    · have h4 : ("signal.tenant" : String) = "signal.type" := congrArg Prod.fst h1
      exact absurd h4 (by decide)
    · rcases List.mem_cons.1 h1 with h2 | h2
      · exact hne (congrArg Prod.snd h2).symm
      · have h3 := List.mem_singleton.1 h2
        have h4 : ("signal.tenant" : String) = "signal.response.status.code" :=
          congrArg Prod.fst h3
        exact absurd h4 (by decide)
  have hsnd := send_snd_no_counters env t ep st tenant' rs tags
  cases hr : (send env t ep st tenant' rs).1 with
  | error e =>
    have hw := worker_eq_of_err env t ep st tenant' rs e hr
    rw [hw, recordsTotal_append, requestsTotal_append, hsnd.1, hsnd.2]
    constructor
    · simp [recordsTotal, herr]
    · simp [requestsTotal]
  | ok resp =>
    have hw := worker_eq_of_ok env t ep st tenant' rs resp hr
    rw [hw, recordsTotal_append, requestsTotal_append, hsnd.1, hsnd.2]
    constructor
    · simp [recordsTotal, hok (toString resp.statusCode)]
    · simp [requestsTotal, hok (toString resp.statusCode)]
theorem dispatch_events_eq (env : SendEnv) (t : Tenant) (ep : Endpoint) (st : String)
    (m : TenantMap) :
    (Dispatch env t ep st m).1 = m.flatMap (fun e => worker env t ep st e.1 e.2) := by
  show m.foldl (fun evs entry => evs ++ worker env t ep st entry.1 entry.2) [] = _
  suffices h : ∀ acc, m.foldl (fun evs entry => evs ++ worker env t ep st entry.1 entry.2) acc =
      acc ++ m.flatMap (fun e => worker env t ep st e.1 e.2) by
    simpa using h []
  induction m with
  | nil => simp
  | cons e rest ih =>
    intro acc
    simp [List.foldl_cons, List.flatMap_cons, ih]

theorem dispatch_totals_absent_tenant (env : SendEnv) (t : Tenant) (ep : Endpoint)
    (st : String) (m : TenantMap) (tenant : String)
    (hnot : tenant ∉ m.map Prod.fst) (tags : List (String × String))
    (htags : ("signal.tenant", tenant) ∈ tags) :
    recordsTotal (m.flatMap (fun e => worker env t ep st e.1 e.2)) tags = 0 ∧
    requestsTotal (m.flatMap (fun e => worker env t ep st e.1 e.2)) tags = 0 := by
  induction m with
  | nil => simp [recordsTotal, requestsTotal]
  | cons e rest ih =>
    simp only [List.map_cons, List.mem_cons, not_or] at hnot
    have hw := worker_totals_other_tenant env t ep st e.1 e.2 tenant
      (fun hh => hnot.1 hh.symm) tags htags
    have hr := ih hnot.2
    rw [List.flatMap_cons, recordsTotal_append, requestsTotal_append]
    omega

/-- C6: per-worker accounting in Dispatch.  For a bucket whose send returns
a response, proxy_records_total grows by the bucket size and
proxy_requests_total by 1, both tagged with signal type, tenant and the
response status code; for a bucket whose send fails (transport or encode),
proxy_records_total grows by the bucket size tagged with tenant and signal
type only (no status-code tag), and proxy_requests_total does not grow for
any tag set naming that tenant. -/
theorem dispatch_accounting (env : SendEnv) (t : Tenant) (ep : Endpoint) (st : String)
    (tenantMap : TenantMap) (tenant : String) (items : List Item)
    (hnodup : (tenantMap.map Prod.fst).Nodup)
    (hmem : (tenant, items) ∈ tenantMap) :
    (∀ resp : HttpResponse, (send env t ep st tenant items).1 = .ok resp →
      recordsTotal (Dispatch env t ep st tenantMap).1
          [("signal.type", st), ("signal.tenant", tenant),
            ("signal.response.status.code", toString resp.statusCode)] = items.length ∧
      requestsTotal (Dispatch env t ep st tenantMap).1
          [("signal.type", st), ("signal.tenant", tenant),
            ("signal.response.status.code", toString resp.statusCode)] = 1) ∧
    (∀ e : SendError, (send env t ep st tenant items).1 = .error e →
      recordsTotal (Dispatch env t ep st tenantMap).1
          [("signal.tenant", tenant), ("signal.type", st)] = items.length ∧
      ∀ tags : List (String × String), ("signal.tenant", tenant) ∈ tags →
        requestsTotal (Dispatch env t ep st tenantMap).1 tags = 0) := by
  rw [dispatch_events_eq] at *
  induction tenantMap with
  | nil => cases hmem
  | cons e rest ih =>
    rw [List.map_cons, List.nodup_cons] at hnodup
    rcases List.mem_cons.1 hmem with hhead | htail
    · subst hhead
      constructor
      · intro resp hresp
        have hw := worker_ok_totals env t ep st tenant items resp hresp
        have habs := dispatch_totals_absent_tenant env t ep st rest tenant hnodup.1
          [("signal.type", st), ("signal.tenant", tenant),
            ("signal.response.status.code", toString resp.statusCode)] (by simp)
        rw [List.flatMap_cons]
        dsimp only
        rw [recordsTotal_append, requestsTotal_append]
        omega
      · intro e he
        have hw := worker_err_totals env t ep st tenant items e he
        constructor
        · have habs := dispatch_totals_absent_tenant env t ep st rest tenant hnodup.1
            [("signal.tenant", tenant), ("signal.type", st)] (by simp)
          rw [List.flatMap_cons]
          dsimp only
          rw [recordsTotal_append]
          omega
        · intro tags htags
          have habs := dispatch_totals_absent_tenant env t ep st rest tenant hnodup.1
            tags htags
          rw [List.flatMap_cons]
          dsimp only
          rw [requestsTotal_append]
          have := hw.2 tags
          omega
    · have hne : e.1 ≠ tenant := by
        intro hh
        exact hnodup.1 (hh ▸ List.mem_map_of_mem Prod.fst htail)
      have ihm := ih hnodup.2 htail
      constructor
      · intro resp hresp
        have hw := worker_totals_other_tenant env t ep st e.1 e.2 tenant hne
          [("signal.type", st), ("signal.tenant", tenant),
            ("signal.response.status.code", toString resp.statusCode)] (by simp)
        have := ihm.1 resp hresp
        rw [List.flatMap_cons, recordsTotal_append, requestsTotal_append]
        omega
      · intro er he
        have hw := worker_totals_other_tenant env t ep st e.1 e.2 tenant hne
          [("signal.tenant", tenant), ("signal.type", st)] (by simp)
        have herrm := ihm.2 er he
        constructor
        · rw [List.flatMap_cons, recordsTotal_append]
          omega
        · intro tags htags
          have hw2 := worker_totals_other_tenant env t ep st e.1 e.2 tenant hne tags htags
          have := herrm.2 tags htags
          rw [List.flatMap_cons, requestsTotal_append]
          omega

/-- Witness for C6 at a concrete input: one bucket for tenant "t1" whose
send succeeds with status 500 yields a records increment of 1 and a
requests increment of 1 under the status-tagged key; with a failing
executor the same bucket yields a records increment of 1 under the untagged
key and no requests increment. -/
theorem dispatch_accounting_witness :
    recordsTotal (Dispatch env500 tenantC endpointC "logs" [("t1", [itemC])]).1
        [("signal.type", "logs"), ("signal.tenant", "t1"),
          ("signal.response.status.code", toString (500 : Nat))] = 1 ∧
    recordsTotal (Dispatch envFail tenantC endpointC "logs" [("t1", [itemC])]).1
        [("signal.tenant", "t1"), ("signal.type", "logs")] = 1 := by
  constructor
  · exact ((dispatch_accounting env500 tenantC endpointC "logs" [("t1", [itemC])]
      "t1" [itemC] (by decide) (by simp)).1 ⟨500⟩ rfl).1
  · exact ((dispatch_accounting envFail tenantC endpointC "logs" [("t1", [itemC])]
      "t1" [itemC] (by decide) (by simp)).2 (.transportFailure "connection refused") rfl).1

/-- C7: send treats any HTTP response, 2xx or not, as a non-error outcome.
Whenever the executor answers with a response — of any status code — and
marshalling and request construction succeed, send returns that response
with no error together with the latency histogram sample tagged with the
response status code; and a send error can only arise from a marshalling
failure, a request-construction failure, or an executor failure. -/
theorem send_response_is_ok (env : SendEnv) (t : Tenant) (ep : Endpoint)
    (st tenant : String) (resources : List Item) :
    (∀ resp : HttpResponse, (∀ r, env.doRequest r = .ok resp) →
      ∀ body, env.marshal resources = .ok body →
      ∀ req, env.newRequest ep.address body = .ok req →
      send env t ep st tenant resources =
        (.ok resp,
          [.latency [("signal.response.status.code", toString resp.statusCode),
            ("signal.type", st), ("signal.tenant", tenant)]])) ∧
    (∀ e : SendError, (send env t ep st tenant resources).1 = .error e →
      (∃ msg, env.marshal resources = .error msg) ∨
      (∃ body msg, env.newRequest ep.address body = .error msg) ∨
      (∃ r msg, env.doRequest r = .error msg)) := by
  constructor
  · intro resp hdo body hm req hreq
    unfold send
    simp only [hm, hreq, hdo]
  · intro e he
    unfold send at he
    cases hm : env.marshal resources with
    | error msg => exact Or.inl ⟨msg, rfl⟩
    | ok body =>
      simp only [hm] at he
      cases hreq : env.newRequest ep.address body with
      | error msg => exact Or.inr (Or.inl ⟨body, msg, hreq⟩)
      | ok req =>
        simp only [hreq] at he
        cases hdo : env.doRequest
            { req with header := AddHeaders env.sprintf tenant req.header t ep.headers } with
        | error msg => exact Or.inr (Or.inr ⟨_, msg, hdo⟩)
        | ok resp => simp [hdo] at he

/-- Witness for C7 at a concrete input: with an executor constantly
answering 500 — not a 2xx — send returns the 500 response as a non-error
outcome together with the status-tagged latency sample. -/
theorem send_response_is_ok_witness :
    send env500 tenantC endpointC "logs" "t1" [itemC] =
      (.ok ⟨500⟩,
        [.latency [("signal.response.status.code", toString (500 : Nat)),
          ("signal.type", "logs"), ("signal.tenant", "t1")]]) :=
  (send_response_is_ok env500 tenantC endpointC "logs" "t1" [itemC]).1
    ⟨500⟩ (fun _ => rfl) [0] rfl ⟨endpointC.address, [0], []⟩ rfl

/-- C8 is refuted as stated for the generic handlers: on decode failure the
logs (and metrics) handler replies 400 with the decode error's own message
as the body — e.g. the protobuf library's "cannot parse invalid wire-format
data" — not the fixed string "failed to unmarshal logs". -/
theorem handler_decode_body_counterexample :
    Logs (.error "cannot parse invalid wire-format data") (.ok ()) env500 tenantC endpointC =
      (.response 400 "cannot parse invalid wire-format data", []) ∧
    "cannot parse invalid wire-format data" ≠ "failed to unmarshal logs" :=
  ⟨rfl, by decide⟩

/-- C8 (amended): when the request body fails to decode, the handler
responds 400 Bad Request and performs no partitioning or dispatch; the
per-signal traces handler's body is the fixed string "failed to unmarshal
traces", while the generic logs (and metrics) handler echoes the decode
error's own message as the body. -/
theorem handler_decode_failure_amended (e : String) (procNew : Except String Unit)
    (env : SendEnv) (t : Tenant) (ep : Endpoint) (dispatchErr : Option String)
    (dispatchEvents : List MetricEvent) :
    Logs (.error e) procNew env t ep = (.response 400 e, []) ∧
    tracesHandler (.error e) dispatchErr dispatchEvents =
      (.response 400 "failed to unmarshal traces", []) :=
  ⟨rfl, rfl⟩

theorem foldl_addCustomHeader (l : List String) (h0 : Header) :
    l.foldl addCustomHeader h0 = h0 ++ l.filterMap parsePiece := by
  induction l generalizing h0 with
  | nil => simp
  | cons c rest ih =>
    simp only [List.foldl_cons, List.filterMap_cons, ih]
    cases hp : parsePiece c with
    | none => simp [addCustomHeader, hp]
    | some kv =>
      obtain ⟨k, v⟩ := kv
      simp [addCustomHeader, hp, headerAdd]

theorem addHeaders_nil_eq (sprintf : String → String → String) (tenant : String)
    (t : Tenant) (headers : String) :
    AddHeaders sprintf tenant [] t headers =
      ("Content-Type", "application/x-protobuf") ::
        (t.header, sprintf t.format tenant) :: parsedPairs headers := by
  unfold AddHeaders parsedPairs
  rw [foldl_addCustomHeader]
  rfl

/-- C9 is refuted as stated on two counts.  (i) The per-signal traces
composer (traces.go addHeaders, lines 150-163) splits config.Logs.Headers,
not the traces endpoint's own extra-headers string: with logs extras "a=b"
and traces extras "c=d", the composed traces request carries ("a", "b") and
not the traces endpoint's own well-formed pair ("c", "d").  (ii) A
well-formed extra pair may itself use the tenant header name: with extras
"X-Scope-OrgID=evil" the generic composer yields the two values
["t1", "evil"] under the tenant header name rather than exactly one. -/
theorem addHeaders_counterexample :
    (("c", "d") ∈ parsedPairs cfgC.traces.headers ∧
      ("c", "d") ∉ tracesAddHeaders (fun _ tenant => tenant) "t1" [] cfgC ∧
      ("a", "b") ∈ tracesAddHeaders (fun _ tenant => tenant) "t1" [] cfgC) ∧
    (headerValues
        (AddHeaders (fun _ tenant => tenant) "t1" [] tenantC "X-Scope-OrgID=evil")
        "X-Scope-OrgID" = ["t1", "evil"] ∧
      ["t1", "evil"].length ≠ 1) :=
  ⟨⟨by decide, by decide, by decide⟩, by decide, by decide⟩

/-- C9 (amended): every outbound request produced by the generic header
composer (request.go AddHeaders) carries Content-Type:
application/x-protobuf and every well-formed k=v pair parsed from the
endpoint's own extra-headers string (split on "," then on the first "=";
malformed pairs silently skipped), and carries exactly one tenant header
value — the configured format applied to the tenant identity — provided the
tenant header name is not "Content-Type" and no well-formed extra pair uses
the tenant header name (otherwise further values accumulate under that
name); the per-signal traces composer carries the same Content-Type and
tenant header but parses the logs endpoint's extra-headers string in place
of the traces endpoint's own. -/
theorem addHeaders_amended (sprintf : String → String → String) (tenant : String)
    (t : Tenant) (headers : String) (cfg : Config) :
    ("Content-Type", "application/x-protobuf") ∈ AddHeaders sprintf tenant [] t headers ∧
    (∀ p ∈ parsedPairs headers, p ∈ AddHeaders sprintf tenant [] t headers) ∧
    (t.header ≠ "Content-Type" →
      (∀ p ∈ parsedPairs headers, p.1 ≠ t.header) →
      headerValues (AddHeaders sprintf tenant [] t headers) t.header =
        [sprintf t.format tenant]) ∧
    tracesAddHeaders sprintf tenant [] cfg =
      ("Content-Type", "application/x-protobuf") ::
        (cfg.tenant.header, sprintf cfg.tenant.format tenant) ::
          parsedPairs cfg.logs.headers := by
  rw [addHeaders_nil_eq]
  refine ⟨by simp, fun p hp => by simp [hp], fun hct hpairs => ?_, ?_⟩
  · have h1 : ¬(("Content-Type" : String) = t.header) := fun hh => hct hh.symm
    have h2 : (parsedPairs headers).filter (fun p => p.1 = t.header) = [] :=
      List.filter_eq_nil_iff.2 (fun p hp => by simpa using hpairs p hp)
    simp [headerValues, List.filter_cons, List.filter_append, h1, h2]
  · unfold tracesAddHeaders parsedPairs
    rw [foldl_addCustomHeader]
    rfl

/-- Witness for C9 at a concrete input: with the default configuration and
the extra-headers string "a=b", the generic composer carries exactly the
value "t1" under X-Scope-OrgID. -/
theorem addHeaders_amended_witness :
    headerValues (AddHeaders (fun _ tenant => tenant) "t1" [] tenantC "a=b")
      "X-Scope-OrgID" = ["t1"] :=
  (addHeaders_amended (fun _ tenant => tenant) "t1" tenantC "a=b" cfgC).2.2.1
    (by decide) (by decide)

end Proxy
